import Mathlib

/-!
Verification development for the Laravel toolkit VS Code extension
(`laravel-toolkit-vscode`): a shallow embedding of the field-specification
mini-language, the type-taxonomy lookups, the name transformers, the schema
emitter and the route-registration / generation-command coordination logic,
together with theorems checking the specification's claims against them.

JavaScript string primitives (`split`, `trim`, `includes`, `parseInt`,
truthiness of numbers, strings and `undefined`) are modelled explicitly so
that each generator function can be translated clause by clause from the
source.
-/

/-- JS `s.split(sep)` for a single-character separator, on character lists:
prepend a character to the first chunk. -/
def consHead (c : Char) : List (List Char) → List (List Char)
  | [] => [[c]]
  | h :: t => (c :: h) :: t

/-- JS `s.split(sep)` for a single-character separator, on character lists.
`splitChar ',' []` is `[[]]`, matching `"".split(",") == [""]`. -/
def splitChar (sep : Char) : List Char → List (List Char)
  | [] => [[]]
  | c :: rest =>
    if c = sep then [] :: splitChar sep rest else consHead c (splitChar sep rest)

/-- JS `s.split(c)` for a one-character separator string `c`. -/
def jsSplit (sep : Char) (s : String) : List String :=
  (splitChar sep s.data).map String.mk

/-- The ECMAScript WhiteSpace and LineTerminator characters (the class
stripped by `trim`, skipped by `parseInt`, and matched by `\s`): TAB, LF,
VT, FF, CR, SP, NBSP, ZWNBSP/BOM, the line separators U+2028/U+2029, and
the Unicode Space_Separator characters. -/
def jsWhitespace (c : Char) : Bool :=
  c.val = 0x09 || c.val = 0x0A || c.val = 0x0B || c.val = 0x0C || c.val = 0x0D ||
    c.val = 0x20 || c.val = 0xA0 || c.val = 0x1680 ||
    (0x2000 ≤ c.val && c.val ≤ 0x200A) ||
    c.val = 0x2028 || c.val = 0x2029 || c.val = 0x202F || c.val = 0x205F ||
    c.val = 0x3000 || c.val = 0xFEFF

/-- JS `String.prototype.trim` on character lists: drop ECMAScript
whitespace from both ends. -/
def trimList (l : List Char) : List Char :=
  ((l.dropWhile jsWhitespace).reverse.dropWhile jsWhitespace).reverse

/-- JS `s.trim()`. -/
def jsTrim (s : String) : String :=
  String.mk (trimList s.data)

/-- JS `a || b` on strings: the empty string is falsy. -/
def jsOr (s dflt : String) : String :=
  if s = "" then dflt else s

/-- JS truthiness of a possibly-`undefined`/`NaN` number
(`undefined`, `NaN` and `0` are falsy). `none` stands for both `undefined`
and `NaN`, which behave identically in every boolean test of the sources. -/
def truthyInt (o : Option Int) : Bool :=
  match o with
  | none => false
  | some n => n != 0

/-- JS truthiness of a possibly-`undefined` string (`undefined` and `""` are
falsy). -/
def truthyStr (o : Option String) : Bool :=
  match o with
  | none => false
  | some s => s != ""

/-- Digit run of a JS `parseInt`: value of the maximal leading decimal-digit
sequence, `none` (NaN) if there is none. -/
def digitsVal (l : List Char) : Option Nat :=
  let ds := l.takeWhile (·.isDigit)
  if ds = [] then none
  else some (ds.foldl (fun acc c => acc * 10 + (c.toNat - 48)) 0)

/-- Hexadecimal digit, as accepted after a `0x` prefix by JS `parseInt`. -/
def isHexDigit (c : Char) : Bool :=
  c.isDigit || ('a' ≤ c && c ≤ 'f') || ('A' ≤ c && c ≤ 'F')

/-- Value of one hexadecimal digit. -/
def hexVal (c : Char) : Nat :=
  if c.isDigit then c.toNat - 48
  else if 'a' ≤ c && c ≤ 'f' then c.toNat - 87
  else c.toNat - 55

/-- Hex-digit run of a JS `parseInt` after a `0x` prefix. -/
def hexDigitsVal (l : List Char) : Option Nat :=
  let ds := l.takeWhile isHexDigit
  if ds = [] then none
  else some (ds.foldl (fun acc c => acc * 16 + hexVal c) 0)

/-- Magnitude part of a JS `parseInt` call without a radix argument: a
`0x`/`0X` prefix switches to hexadecimal, otherwise the maximal leading
decimal-digit run is read. -/
def parseIntCore (l : List Char) : Option Nat :=
  match l with
  | '0' :: x :: rest => if x = 'x' || x = 'X' then hexDigitsVal rest else digitsVal l
  | _ => digitsVal l

/-- JS `parseInt(s)` with no radix argument: skip leading ECMAScript
whitespace, optional sign, then a hexadecimal (`0x`) or decimal digit run;
`none` models `NaN`. -/
def jsParseInt (s : String) : Option Int :=
  let l := s.data.dropWhile jsWhitespace
  match l with
  | '-' :: rest => (parseIntCore rest).map (fun n => -(n : Int))
  | '+' :: rest => (parseIntCore rest).map (fun n => (n : Int))
  | _ => (parseIntCore l).map (fun n => (n : Int))

/-- A field descriptor produced by `parseFields` in
`src/generators/crud-spa.js`: `{ name, type }`. -/
structure ParsedField where
  name : String
  type : String
deriving DecidableEq

/-- `parseFields` from `src/generators/crud-spa.js`:
`fieldsString.split(",").map(field => { const [name, type = "string"] =
field.trim().split(":"); return { name: name.trim(), type: type.trim() }; })`. -/
def parseFields (fieldsString : String) : List ParsedField :=
  (jsSplit ',' fieldsString).map fun field =>
    let parts := jsSplit ':' (jsTrim field)
    { name := jsTrim (parts.headD ""), type := jsTrim ((parts.get? 1).getD "string") }

/-- A field descriptor of the migration/API generator: one user-declared
entity attribute with its type-specific arguments and modifier flags.
`none` models an absent (JS `undefined`) property. -/
structure FieldDescriptor where
  name : String := ""
  type : String := "string"
  length : Option Int := none
  precision : Option Int := none
  scale : Option Int := none
  values : Option (List String) := none
  unsigned : Bool := false
  nullable : Bool := false
  unique : Bool := false
  index : Bool := false
  defaultValue : Option String := none
  commentText : Option String := none
  constrained : Option String := none
  cascadeOnDelete : Bool := false
  special : Option String := none
deriving DecidableEq

/-- `parseFieldsManual` from the migration generator: split on `,`, trim each
clause, split the clause on `:`; `parts[1] || "string"` is the type; a third
component is `unique`, `nullable`, or (for `decimal`) the precision, with
`parts[3] ? parseInt(parts[3]) : 2` as the scale. -/
def parseFieldsManual (input : String) : List FieldDescriptor :=
  ((jsSplit ',' input).map jsTrim).map fun fieldStr =>
    let parts := jsSplit ':' fieldStr
    let field : FieldDescriptor :=
      { name := parts.headD "", type := jsOr ((parts.get? 1).getD "") "string" }
    let p2 := (parts.get? 2).getD ""
    if p2 ≠ "" then
      if p2 = "unique" then { field with unique := true }
      else if p2 = "nullable" then { field with nullable := true }
      else if parts.get? 1 = some "decimal" then
        { field with
            precision := jsParseInt p2,
            scale :=
              if (parts.get? 3).getD "" ≠ "" then jsParseInt ((parts.get? 3).getD "")
              else some 2 }
      else field
    else field

/-- Own-property lookup on a JS object literal, modelled as an association
list. This is only the own-key part of a bracket read: the full JS
`obj[key]` semantics, including the properties inherited from
`Object.prototype`, is `objGet` below. -/
def objLookup (key : String) : List (String × String) → Option String
  | [] => none
  | (k, v) :: rest => if key = k then some v else objLookup key rest

/-- The `typeMap` object of `getMigrationType` in
`src/generators/crud-spa.js`. -/
def migrationTypeMap : List (String × String) :=
  [("string", "string"), ("text", "text"), ("integer", "integer"),
   ("bigint", "bigInteger"), ("decimal", "decimal"), ("float", "float"),
   ("double", "double"), ("boolean", "boolean"), ("date", "date"),
   ("datetime", "dateTime"), ("timestamp", "timestamp"), ("json", "json")]

/-- `getMigrationType` from `src/generators/crud-spa.js`:
`typeMap[type] || "string"`, viewed through the own keys of the table; the
prototype-chain behaviour of the bracket read is captured by
`objGet`/`jsOrValue` (see the C4 theorems). -/
def getMigrationType (type : String) : String :=
  (objLookup type migrationTypeMap).getD "string"

/-- The `typeRules` object of `getValidationRules` in
`src/generators/crud-spa.js`. -/
def validationTypeRules : List (String × String) :=
  [("string", "required|string|max:255"), ("text", "required|string"),
   ("integer", "required|integer"), ("bigint", "required|integer"),
   ("decimal", "required|numeric"), ("float", "required|numeric"),
   ("double", "required|numeric"), ("boolean", "required|boolean"),
   ("date", "required|date"), ("datetime", "required|date"),
   ("timestamp", "required|date"), ("json", "required|array")]

/-- `getValidationRules` from `src/generators/crud-spa.js`:
`(isUpdate ? "sometimes|" : "") + (typeRules[type] || "required|string|max:255")`,
viewed through the own keys of the table (the prototype-chain behaviour of
the bracket read is captured by `objGet`/`jsOrValue`; both modes share this
one lookup expression, so the `sometimes|` relation is unaffected). -/
def getValidationRules (type : String) (isUpdate : Bool := false) : String :=
  (if isUpdate then "sometimes|" else "") ++
    ((objLookup type validationTypeRules).getD "required|string|max:255")

/-- The `typeMap` object of `getInputType` in `src/generators/crud-spa.js`
(note: it has no `json` entry). -/
def inputTypeMap : List (String × String) :=
  [("string", "text"), ("text", "textarea"), ("integer", "number"),
   ("bigint", "number"), ("decimal", "number"), ("float", "number"),
   ("double", "number"), ("boolean", "checkbox"), ("date", "date"),
   ("datetime", "datetime-local"), ("timestamp", "datetime-local")]

/-- `getInputType` from `src/generators/crud-spa.js`:
`typeMap[fieldType] || "text"`, viewed through the own keys of the table;
the prototype-chain behaviour of the bracket read is captured by
`objGet`/`jsOrValue` (see the C4 theorems). -/
def getInputType (fieldType : String) : String :=
  (objLookup fieldType inputTypeMap).getD "text"

example : parseFields "price:decimal:8,2" =
    [⟨"price", "decimal"⟩, ⟨"2", "string"⟩] := by decide

example : parseFieldsManual "price:decimal:8,2" =
    [{ name := "price", type := "decimal", precision := some 8, scale := some 2 },
     { name := "2", type := "string" }] := by decide

example : parseFields "" = [⟨"", "string"⟩] := by decide

/-- ASCII word character, JS regex `\w`. -/
def isWordChar (c : Char) : Bool :=
  c.isAlphanum || c = '_'

/-- JS `str.replace(/[-_](\w)/g, (_, c) => c.toUpperCase())`: each dash or
underscore followed by a word character is replaced by that character
uppercased; matches are non-overlapping, left to right. -/
def replaceDashUnder : List Char → List Char
  | [] => []
  | [c] => [c]
  | c1 :: c2 :: rest =>
    if (c1 = '-' || c1 = '_') && isWordChar c2 then
      c2.toUpper :: replaceDashUnder rest
    else
      c1 :: replaceDashUnder (c2 :: rest)

/-- JS `str.replace(/^\w/, c => c.toUpperCase())`. -/
def upcaseFirst (l : List Char) : List Char :=
  match l with
  | [] => []
  | c :: rest => if isWordChar c then c.toUpper :: rest else c :: rest

/-- `toPascalCase` from `src/extension.js` / the shared helpers. -/
def toPascalCase (str : String) : String :=
  String.mk (upcaseFirst (replaceDashUnder str.data))

/-- `toCamelCase` from `src/extension.js`:
`pascal.charAt(0).toLowerCase() + pascal.slice(1)`. -/
def toCamelCase (str : String) : String :=
  match (toPascalCase str).data with
  | [] => ""
  | c :: rest => String.mk (c.toLower :: rest)

/-- JS `str.replace(/([a-z])([A-Z])/g, "$1<sep>$2")`: insert `sep` between a
lowercase letter and an uppercase letter; both matched characters are
consumed, so scanning resumes after the uppercase one. -/
def insertSep (sep : Char) : List Char → List Char
  | [] => []
  | [c] => [c]
  | c1 :: c2 :: rest =>
    if c1.isLower && c2.isUpper then c1 :: sep :: c2 :: insertSep sep rest
    else c1 :: insertSep sep (c2 :: rest)

/-- JS `str.replace(/X+/g, rep)` for a character class `X`: collapse each
maximal run of characters satisfying `targets` into the single character
`rep`. The `inRun` flag records whether the previous character matched. -/
def collapseRuns (targets : Char → Bool) (rep : Char) : Bool → List Char → List Char
  | _, [] => []
  | inRun, c :: rest =>
    if targets c then
      if inRun then collapseRuns targets rep true rest
      else rep :: collapseRuns targets rep true rest
    else c :: collapseRuns targets rep false rest

/-- `toKebabCase` from `src/extension.js`:
insert `-` at lower/upper boundaries, collapse `[\s_]+` to `-`, lowercase. -/
def toKebabCase (str : String) : String :=
  String.mk
    (((collapseRuns (fun c => jsWhitespace c || c = '_') '-' false
        (insertSep '-' str.data))).map Char.toLower)

/-- `toSnakeCase` from `src/extension.js`:
insert `_` at lower/upper boundaries, collapse `[\s-]+` to `_`, lowercase. -/
def toSnakeCase (str : String) : String :=
  String.mk
    (((collapseRuns (fun c => jsWhitespace c || c = '-') '_' false
        (insertSep '_' str.data))).map Char.toLower)

/-- The table name used by `createMigration` in `src/generators/crud-spa.js`:
`toSnakeCase(modelName) + "s"` (naive pluralization). -/
def migrationTableName (modelName : String) : String :=
  toSnakeCase modelName ++ "s"

example : toPascalCase "Product" = "Product" := by decide
example : toCamelCase "Product" = "product" := by decide
example : toKebabCase "Product" = "product" := by decide
example : toSnakeCase "Product" = "product" := by decide
example : migrationTableName "Category" = "categorys" := by decide
example : toSnakeCase "ProductItem" = "product_item" := by decide
example : toKebabCase "ProductItem" = "product-item" := by decide

/-- The column call of a field definition (constructor name plus arguments),
before any modifier: the part of `generateFieldDefinition` up to and
including the closing parenthesis. -/
def columnCall (f : FieldDescriptor) : String :=
  let d := "$table->" ++ f.type ++ "(\x27" ++ f.name ++ "\x27"
  let d := if truthyInt f.length then d ++ ", " ++ toString (f.length.getD 0) else d
  let d :=
    if truthyInt f.precision && truthyInt f.scale then
      d ++ ", " ++ toString (f.precision.getD 0) ++ ", " ++ toString (f.scale.getD 0)
    else d
  let d :=
    match f.values with
    | some vs =>
      d ++ ", [" ++ String.intercalate ", " (vs.map (fun v => "\x27" ++ v ++ "\x27")) ++ "]"
    | none => d
  d ++ ")"

/-- `generateFieldDefinition` from the migration generator: build
`$table->type('name'` plus the type-specific arguments, close the call, then
append the modifiers in source order (unsigned, nullable, unique, index,
default, comment, constrained, cascadeOnDelete) and the trailing `;`.
A `special` field renders as `$table-><special>();`. -/
def generateFieldDefinition (f : FieldDescriptor) : String :=
  if f.type = "special" then
    "$table->" ++ f.special.getD "undefined" ++ "();"
  else
    let d := columnCall f
    let d := if f.unsigned then d ++ "->unsigned()" else d
    let d := if f.nullable then d ++ "->nullable()" else d
    let d := if f.unique then d ++ "->unique()" else d
    let d := if f.index then d ++ "->index()" else d
    let d :=
      match f.defaultValue with
      | some dv =>
        d ++ ("->default(" ++ (if dv = "null" then "null" else "\x27" ++ dv ++ "\x27") ++ ")")
      | none => d
    let d :=
      if truthyStr f.commentText then
        d ++ ("->comment(\x27" ++ f.commentText.getD "" ++ "\x27)")
      else d
    let d :=
      if truthyStr f.constrained then
        d ++ ("->constrained(\x27" ++ f.constrained.getD "" ++ "\x27)")
      else d
    let d := if f.cascadeOnDelete then d ++ "->cascadeOnDelete()" else d
    d ++ ";"

/-- Concatenation of a list of strings (no separator). -/
def strJoin : List String → String
  | [] => ""
  | s :: rest => s ++ strJoin rest

/-- Modelled from the spec's wording of the Schema Emitter contract: the
`modifierChain` of a field descriptor, scanned in the fixed order unsigned,
nullable, unique, index, default, comment, foreign-key constraint, cascade;
an unselected modifier contributes the empty string. -/
def modifierChain (f : FieldDescriptor) : List String :=
  [if f.unsigned then "->unsigned()" else "",
   if f.nullable then "->nullable()" else "",
   if f.unique then "->unique()" else "",
   if f.index then "->index()" else "",
   (match f.defaultValue with
    | some dv =>
      "->default(" ++ (if dv = "null" then "null" else "\x27" ++ dv ++ "\x27") ++ ")"
    | none => ""),
   if truthyStr f.commentText then "->comment(\x27" ++ f.commentText.getD "" ++ "\x27)" else "",
   if truthyStr f.constrained then "->constrained(\x27" ++ f.constrained.getD "" ++ "\x27)" else "",
   if f.cascadeOnDelete then "->cascadeOnDelete()" else ""]

lemma strAppendEmpty (s : String) : s ++ "" = s := by
  apply String.ext
  simp [String.data_append]

lemma strEmptyAppend (s : String) : "" ++ s = s := by
  apply String.ext
  simp [String.data_append]

example :
    generateFieldDefinition
      { name := "price", type := "decimal", precision := some 8, scale := some 2 } =
    "$table->decimal(\x27price\x27, 8, 2);" := by decide

example :
    generateFieldDefinition
      { name := "status", type := "enum",
        values := some ["pending", "active", "completed"] } =
    "$table->enum(\x27status\x27, [\x27pending\x27, \x27active\x27, \x27completed\x27]);" := by
  decide

lemma chainIf (b : Bool) (d t : String) :
    (if b then d ++ t else d) = d ++ (if b then t else "") := by
  cases b <;> simp [strAppendEmpty]

lemma chainMatch (o : Option String) (d : String) (g : String → String) :
    (match o with | some v => d ++ g v | none => d) =
      d ++ (match o with | some v => g v | none => "") := by
  cases o <;> simp [strAppendEmpty]

/-- C5: for every field descriptor (other than the interactive-only
`special` pseudo-type, which renders without a modifier chain), the schema
emitter's output is the column call followed by exactly the modifiers of the
fixed chain — unsigned, nullable, unique, index, default, comment,
foreign-key constraint (`constrained`), cascade-on-delete — in that order,
then `;`. The emitter is a pure function, so two invocations on an identical
descriptor yield byte-identical column-definition text. -/
theorem c5_modifier_order (f : FieldDescriptor) (h : f.type ≠ "special") :
    generateFieldDefinition f = columnCall f ++ strJoin (modifierChain f) ++ ";" := by
  unfold generateFieldDefinition
  rw [if_neg h]
  simp only [chainIf, chainMatch]
  simp only [modifierChain, strJoin]
  simp [String.append_assoc, strAppendEmpty]

/-- A concrete field descriptor used to witness `c5_modifier_order`. -/
def sampleField : FieldDescriptor :=
  { name := "price", type := "decimal", precision := some 8, scale := some 2,
    nullable := true, unique := true }

theorem c5_modifier_order_witness :
    sampleField.type ≠ "special" ∧
      generateFieldDefinition sampleField =
        columnCall sampleField ++ strJoin (modifierChain sampleField) ++ ";" :=
  ⟨by decide, c5_modifier_order sampleField (by decide)⟩

/-- JS `haystack.includes(needle)` on character lists: some suffix of the
haystack starts with the needle. -/
def hasSub (needle : List Char) : List Char → Bool
  | [] => needle.isEmpty
  | h :: t => needle.isPrefixOf (h :: t) || hasSub needle t

/-- JS `s.includes(sub)`. -/
def jsIncludes (s sub : String) : Bool :=
  hasSub sub.data s.data

/-- JS `s.toUpperCase()` (ASCII). -/
def jsToUpperCase (s : String) : String :=
  String.mk (s.data.map Char.toUpper)

lemma hasSub_here (n post : List Char) : hasSub n (n ++ post) = true := by
  cases n with
  | nil => cases post <;> simp [hasSub, List.isEmpty]
  | cons c n' =>
    simp only [List.cons_append, hasSub, Bool.or_eq_true]
    left
    rw [List.isPrefixOf_iff_prefix]
    exact (c :: n').prefix_append post

lemma hasSub_append (n pre post : List Char) : hasSub n (pre ++ (n ++ post)) = true := by
  induction pre with
  | nil => simpa using hasSub_here n post
  | cons p pre ih => simp [hasSub, ih]

lemma hasSub_of_eq (n hay pre post : List Char) (h : hay = pre ++ (n ++ post)) :
    hasSub n hay = true := by
  rw [h]; exact hasSub_append n pre post

/-- The marker text checked by both `createAPIRoutes` implementations:
`` `${modelName} API Routes` ``. -/
def apiRoutesMarker (modelName : String) : String :=
  modelName ++ " API Routes"

/-- The `routeCode` appended by `createAPIRoutes` in
`src/generators/crud-spa.js`. -/
def vueApiRouteCode (modelName : String) : String :=
  "\n// " ++ modelName ++ " API Routes\nRoute::apiResource(\x27" ++
    toKebabCase modelName ++ "s\x27, App\\Http\\Controllers\\Api\\" ++
    modelName ++ "Controller::class);\n"

/-- `createAPIRoutes` from `src/generators/crud-spa.js`, as a transformer of
the content of `routes/api.php`: append the route block unless the marker
text is already present. -/
def createAPIRoutesStep (modelName content : String) : String :=
  if jsIncludes content (modelName ++ " API Routes") then content
  else content ++ vueApiRouteCode modelName

/-- The controller namespace used by the API generator's `createAPIRoutes`:
versioned when a version is chosen. -/
def apiControllerNamespace (modelName : String) (version : Option String) : String :=
  if truthyStr version then
    "App\\Http\\Controllers\\Api\\" ++ jsToUpperCase (version.getD "") ++ "\\" ++
      modelName ++ "Controller"
  else
    "App\\Http\\Controllers\\Api\\" ++ modelName ++ "Controller"

/-- The `routeGroup` appended by the API generator's `createAPIRoutes`. -/
def apiRouteGroupCode (modelName : String) (version : Option String) : String :=
  let verPre := if truthyStr version then "/" ++ version.getD "" else ""
  "\n// " ++ modelName ++ " API Routes\nRoute::prefix(\x27" ++ verPre ++
    "\x27)->group(function () \x7b\n    Route::apiResource(\x27" ++
    toKebabCase modelName ++ "s\x27, \\" ++
    apiControllerNamespace modelName version ++ "::class);\n\x7d);\n"

/-- The API generator's `createAPIRoutes` as a transformer of the content of
`routes/api.php`. -/
def createAPIRoutesStepV (modelName : String) (version : Option String)
    (content : String) : String :=
  if jsIncludes content (modelName ++ " API Routes") then content
  else content ++ apiRouteGroupCode modelName version

lemma vue_code_split :
    (" API Routes\nRoute::apiResource(\x27" : String).data =
      (" API Routes" : String).data ++ ("\nRoute::apiResource(\x27" : String).data := by
  decide

lemma group_code_split :
    (" API Routes\nRoute::prefix(\x27" : String).data =
      (" API Routes" : String).data ++ ("\nRoute::prefix(\x27" : String).data := by
  decide

lemma marker_in_vue_code (m c : String) :
    jsIncludes (c ++ vueApiRouteCode m) (m ++ " API Routes") = true := by
  simp only [jsIncludes, vueApiRouteCode, String.data_append]
  refine hasSub_of_eq _ _ (c.data ++ ("\n// " : String).data)
    (("\nRoute::apiResource(\x27" : String).data ++ (toKebabCase m).data ++
      ("s\x27, App\\Http\\Controllers\\Api\\" : String).data ++ m.data ++
      ("Controller::class);\n" : String).data) ?_
  simp [vue_code_split, List.append_assoc]

lemma marker_in_group_code (m c : String) (v : Option String) :
    jsIncludes (c ++ apiRouteGroupCode m v) (m ++ " API Routes") = true := by
  simp only [jsIncludes, apiRouteGroupCode, String.data_append]
  refine hasSub_of_eq _ _ (c.data ++ ("\n// " : String).data)
    ((("\nRoute::prefix(\x27" : String).data ++
      (if truthyStr v then "/" ++ v.getD "" else "").data) ++
      (("\x27)->group(function () \x7b\n    Route::apiResource(\x27" : String).data ++
        (toKebabCase m).data ++ ("s\x27, \\" : String).data ++
        (apiControllerNamespace m v).data ++ ("::class);\n\x7d);\n" : String).data)) ?_
  simp [group_code_split, List.append_assoc]

/-- C6: route registration is idempotent. A first invocation on a routes
file without the entity's marker appends exactly one registration block;
invoking either `createAPIRoutes` implementation (the Vue-CRUD one and the
versioned API-generator one) a second time for the same entity name leaves
the file unchanged, because the appended block contains the marker text that
the pre-write presence check looks for. -/
theorem c6_idempotent_registration (m c : String) (v : Option String) :
    (jsIncludes c (m ++ " API Routes") = false →
      createAPIRoutesStep m c = c ++ vueApiRouteCode m) ∧
    createAPIRoutesStep m (createAPIRoutesStep m c) = createAPIRoutesStep m c ∧
    createAPIRoutesStepV m v (createAPIRoutesStepV m v c) =
      createAPIRoutesStepV m v c := by
  refine ⟨fun h => by simp [createAPIRoutesStep, h], ?_, ?_⟩
  · by_cases h : jsIncludes c (m ++ " API Routes") = true
    · simp [createAPIRoutesStep, h]
    · simp only [createAPIRoutesStep, h, if_neg, if_false, Bool.not_eq_true] at *
      simp [h, marker_in_vue_code]
  · by_cases h : jsIncludes c (m ++ " API Routes") = true
    · simp [createAPIRoutesStepV, h]
    · simp only [createAPIRoutesStepV, h, if_neg, if_false, Bool.not_eq_true] at *
      simp [h, marker_in_group_code]

theorem c6_idempotent_registration_witness :
    jsIncludes "<?php\n" ("Product" ++ " API Routes") = false ∧
      createAPIRoutesStep "Product" "<?php\n" =
        "<?php\n" ++ vueApiRouteCode "Product" :=
  ⟨by decide, (c6_idempotent_registration "Product" "<?php\n" none).1 (by decide)⟩

/-- C3: for every field type string `t` — including strings outside the
recognized enumeration — the update-mode validation rule is exactly
`"sometimes|"` prepended to the create-mode rule for the same type, with
nothing else changed. -/
theorem c3_update_rule_derivation (t : String) :
    getValidationRules t true = "sometimes|" ++ getValidationRules t false := by
  simp [getValidationRules, strEmptyAppend]

/-- The union of the key sets of the three per-artifact lookup tables in
`src/generators/crud-spa.js` (the types those generators recognize). -/
def recognizedTypes : List String :=
  ["string", "text", "integer", "bigint", "decimal", "float", "double",
   "boolean", "date", "datetime", "timestamp", "json"]

/-- A JavaScript value observable from a bracket property read on the type
tables: a string from the object literal itself, a property inherited from
`Object.prototype` (a function, or `Object.prototype` itself for
`__proto__` — in every case truthy and not a string), or `undefined`. -/
inductive JsValue where
  | str (s : String)
  | fn (key : String)
  | undefined
deriving DecidableEq

/-- The property names every plain object literal inherits from
`Object.prototype`. -/
def objectProtoKeys : List String :=
  ["constructor", "hasOwnProperty", "isPrototypeOf", "propertyIsEnumerable",
   "toLocaleString", "toString", "valueOf", "__proto__", "__defineGetter__",
   "__defineSetter__", "__lookupGetter__", "__lookupSetter__"]

/-- JS bracket property read `obj[key]` on an object literal: own keys
first, then the prototype chain — an `Object.prototype` property name hits
the inherited (truthy, non-string) value, anything else is `undefined`. -/
def objGet (key : String) (own : List (String × String)) : JsValue :=
  match objLookup key own with
  | some v => .str v
  | none => if key ∈ objectProtoKeys then .fn key else .undefined

/-- JS truthiness of such a value: `undefined` and `""` are falsy,
inherited functions and objects are truthy. -/
def truthyValue : JsValue → Bool
  | .str s => s != ""
  | .fn _ => true
  | .undefined => false

/-- JS `a || b` on such values. -/
def jsOrValue (a b : JsValue) : JsValue :=
  if truthyValue a then a else b

/-- C4 as stated is false: a bracket read on a JS object literal also finds
the properties inherited from `Object.prototype`, so for the reachable
declared type `constructor` (input `weird_field:constructor`) the lookup
yields the inherited, truthy, non-string `constructor` property and the
`|| fallback` of each of `getMigrationType`, `getValidationRules` and
`getInputType` is bypassed: no artifact-kind lookup resolves to the
`string` entry. -/
theorem c4_fallback_false :
    "constructor" ∉ recognizedTypes ∧
      jsOrValue (objGet "constructor" migrationTypeMap) (JsValue.str "string") ≠
        JsValue.str "string" ∧
      jsOrValue (objGet "constructor" validationTypeRules)
          (JsValue.str "required|string|max:255") ≠
        JsValue.str "required|string|max:255" ∧
      jsOrValue (objGet "constructor" inputTypeMap) (JsValue.str "text") ≠
        JsValue.str "text" := by
  decide

/-- C4 (amended): for every declared type that is outside the recognized
enumeration and is not one of the property names inherited from
`Object.prototype`, each artifact-kind bracket lookup is `undefined` and
the `||` fallback resolves to the `string` entry — migration column
constructor `string`, create rule `required|string|max:255`, UI input kind
`text` — and the own-key table functions agree. For an unrecognized type
that is an inherited property name (see `c4_fallback_false`) the fallback
is bypassed instead. -/
theorem c4_unknown_type_fallback (t : String) (h : t ∉ recognizedTypes)
    (hp : t ∉ objectProtoKeys) :
    jsOrValue (objGet t migrationTypeMap) (JsValue.str "string") =
        JsValue.str "string" ∧
      jsOrValue (objGet t validationTypeRules)
          (JsValue.str "required|string|max:255") =
        JsValue.str "required|string|max:255" ∧
      jsOrValue (objGet t inputTypeMap) (JsValue.str "text") = JsValue.str "text" ∧
      getMigrationType t = "string" ∧
      getValidationRules t false = "required|string|max:255" ∧
      getInputType t = "text" := by
  simp only [recognizedTypes, List.mem_cons, List.not_mem_nil, or_false, not_or] at h
  obtain ⟨h1, h2, h3, h4, h5, h6, h7, h8, h9, h10, h11, h12⟩ := h
  have hmig : objLookup t migrationTypeMap = none := by
    simp [objLookup, migrationTypeMap, h1, h2, h3, h4, h5, h6, h7, h8, h9, h10,
      h11, h12]
  have hval : objLookup t validationTypeRules = none := by
    simp [objLookup, validationTypeRules, h1, h2, h3, h4, h5, h6, h7, h8, h9,
      h10, h11, h12]
  have hinp : objLookup t inputTypeMap = none := by
    simp [objLookup, inputTypeMap, h1, h2, h3, h4, h5, h6, h7, h8, h9, h10, h11]
  refine ⟨?_, ?_, ?_, ?_, ?_, ?_⟩ <;>
    simp [objGet, hmig, hval, hinp, hp, jsOrValue, truthyValue,
      getMigrationType, getValidationRules, getInputType]

theorem c4_unknown_type_fallback_witness :
    "not_a_type" ∉ recognizedTypes ∧ "not_a_type" ∉ objectProtoKeys ∧
      (jsOrValue (objGet "not_a_type" migrationTypeMap) (JsValue.str "string") =
          JsValue.str "string" ∧
        jsOrValue (objGet "not_a_type" validationTypeRules)
            (JsValue.str "required|string|max:255") =
          JsValue.str "required|string|max:255" ∧
        jsOrValue (objGet "not_a_type" inputTypeMap) (JsValue.str "text") =
          JsValue.str "text" ∧
        getMigrationType "not_a_type" = "string" ∧
        getValidationRules "not_a_type" false = "required|string|max:255" ∧
        getInputType "not_a_type" = "text") :=
  ⟨by decide, by decide, c4_unknown_type_fallback "not_a_type" (by decide) (by decide)⟩

/-- C8: name derivation for the canonical entity name `Product` — PascalCase
`Product`, camelCase `product`, kebab-case `product`, snake_case `product`,
and the pluralized table name `products`, the pluralization being an
unconditional `+ "s"` on the snake_case name, so `Category` gives the table
name `categorys`. -/
theorem c8_name_derivation :
    toPascalCase "Product" = "Product" ∧ toCamelCase "Product" = "product" ∧
      toKebabCase "Product" = "product" ∧ toSnakeCase "Product" = "product" ∧
      migrationTableName "Product" = "products" ∧
      migrationTableName "Category" = "categorys" := by
  decide

/-- C1 as stated is false: parsing `price:decimal:8,2` does not produce
exactly one field descriptor. Both parsers split on the top-level comma
first, so the input yields two descriptors (the `2` of `8,2` becomes a
stray field named `2`). -/
theorem c1_single_descriptor_false :
    (parseFieldsManual "price:decimal:8,2").length ≠ 1 ∧
      (parseFieldsManual "price:decimal:8,2").length = 2 ∧
      (parseFields "price:decimal:8,2").length ≠ 1 ∧
      (parseFields "price:decimal:8,2").length = 2 := by
  decide

/-- C1 (amended): for the input `price:decimal:8,2` the manual parser
produces two descriptors — `price : decimal` with precision 8 and scale 2
(the scale coming from the default, since `,` cut the clause) and a stray
descriptor named `2` of type `string` — and the emitters produce for the
first descriptor the schema column `decimal('price', 8, 2)`, create rule
`required|numeric`, update rule `sometimes|required|numeric` and UI input
kind `number`. -/
theorem c1_decimal_scenario :
    parseFieldsManual "price:decimal:8,2" =
      [{ name := "price", type := "decimal", precision := some 8, scale := some 2 },
       { name := "2", type := "string" }] ∧
      generateFieldDefinition
          { name := "price", type := "decimal", precision := some 8, scale := some 2 } =
        "$table->decimal(\x27price\x27, 8, 2);" ∧
      getValidationRules "decimal" false = "required|numeric" ∧
      getValidationRules "decimal" true = "sometimes|required|numeric" ∧
      getInputType "decimal" = "number" := by
  decide

/-- C7 as stated is false: the validation and UI lookup tables have no
`enum` entry, so for an enum field the create rule is the `string` fallback
— it does not contain `in:pending,active,completed` — and the input kind is
the fallback `text`, not `select`. -/
theorem c7_enum_rule_false :
    jsIncludes (getValidationRules "enum" false) "in:pending,active,completed" = false ∧
      getInputType "enum" ≠ "select" := by
  decide

/-- C7 (amended): for an enum field with values `pending`, `active`,
`completed` in that order, the schema emitter renders
`enum('status', ['pending', 'active', 'completed'])` with the values in
declared order, but the create-mode validation rule is the `string`
fallback `required|string|max:255` (no `in:` clause) and the UI input kind
is the fallback `text` rather than `select`. -/
theorem c7_enum_scenario :
    generateFieldDefinition
        { name := "status", type := "enum",
          values := some ["pending", "active", "completed"] } =
      "$table->enum(\x27status\x27, [\x27pending\x27, \x27active\x27, \x27completed\x27]);" ∧
      getValidationRules "enum" false = "required|string|max:255" ∧
      getInputType "enum" = "text" := by
  decide

lemma splitChar_ne_nil (sep : Char) (l : List Char) : splitChar sep l ≠ [] := by
  induction l with
  | nil => simp [splitChar]
  | cons c rest ih =>
    simp only [splitChar]
    split
    · simp
    · cases hsp : splitChar sep rest with
      | nil => simp [consHead]
      | cons h t => simp [consHead]

/-- C10: both FieldSpec parsers are total functions of the input string (in
this embedding they are Lean functions, and the source never throws: every
clause falls back to defaults), and on every input — including the empty
string — they return a non-empty descriptor list; the empty string yields
exactly one descriptor whose name is `""` and whose type is `string`. -/
theorem c10_parser_totality :
    parseFields "" = [{ name := "", type := "string" }] ∧
      parseFieldsManual "" = [{ name := "", type := "string" }] ∧
      ∀ s : String, parseFields s ≠ [] ∧ parseFieldsManual s ≠ [] := by
  refine ⟨by decide, by decide, fun s => ⟨?_, ?_⟩⟩
  · have h := splitChar_ne_nil ',' s.data
    simpa [parseFields, jsSplit, List.map_eq_nil_iff] using h
  · have h := splitChar_ne_nil ',' s.data
    simpa [parseFieldsManual, jsSplit, List.map_eq_nil_iff] using h

/-- A side effect of a generation command: a file write (identified by its
path) or an external build-tool command. -/
inductive Effect where
  | writeFile (path : String)
  | execCmd (cmd : String)
deriving DecidableEq

/-- Node's `path.join`: empty segments are skipped. -/
def pathJoin (parts : List String) : String :=
  String.intercalate "/" (parts.filter (fun p => p ≠ ""))

/-- Pre-existing file-system state consulted by the Vue CRUD generator. -/
structure VueEnv where
  rootPath : String
  timestamp : String
  apiRoutes : Option String
  routerJs : Option String

/-- Write of `createModel` in `src/generators/crud-spa.js`. -/
def createModelWrite (root m : String) : List Effect :=
  [.writeFile (pathJoin [root, "app", "Models", m ++ ".php"])]

/-- Write of `createMigration` in `src/generators/crud-spa.js`. -/
def createMigrationWrite (root ts m : String) : List Effect :=
  [.writeFile (pathJoin [root, "database", "migrations",
    ts ++ "_create_" ++ migrationTableName m ++ "_table.php"])]

/-- Write of `createAPIController` in `src/generators/crud-spa.js`. -/
def createAPIControllerWrite (root m : String) : List Effect :=
  [.writeFile (pathJoin [root, "app", "Http", "Controllers", "Api",
    m ++ "Controller.php"])]

/-- Write of `createAPIResource` in `src/generators/crud-spa.js`. -/
def createAPIResourceWrite (root m : String) : List Effect :=
  [.writeFile (pathJoin [root, "app", "Http", "Resources", m ++ "Resource.php"])]

/-- Writes of `createFormRequests` in `src/generators/crud-spa.js`. -/
def createFormRequestsWrites (root m : String) : List Effect :=
  [.writeFile (pathJoin [root, "app", "Http", "Requests", "Store" ++ m ++ "Request.php"]),
   .writeFile (pathJoin [root, "app", "Http", "Requests", "Update" ++ m ++ "Request.php"])]

/-- Writes of `createVueComponents` in `src/generators/crud-spa.js`. -/
def createVueComponentsWrites (root m : String) : List Effect :=
  [.writeFile (pathJoin [root, "resources", "js", "components", m, m ++ "List.vue"]),
   .writeFile (pathJoin [root, "resources", "js", "components", m, m ++ "Form.vue"]),
   .writeFile (pathJoin [root, "resources", "js", "components", m, m ++ "Show.vue"])]

/-- Write of `createVueComposables` in `src/generators/crud-spa.js`. -/
def createVueComposablesWrite (root m : String) : List Effect :=
  [.writeFile (pathJoin [root, "resources", "js", "composables", "use" ++ m ++ "s.js"])]

/-- Writes of `createAPIRoutes` in `src/generators/crud-spa.js`: nothing if
`routes/api.php` does not exist or already holds the marker. -/
def createAPIRoutesWrites (root m : String) (file : Option String) : List Effect :=
  match file with
  | none => []
  | some c =>
    if jsIncludes c (m ++ " API Routes") then []
    else [.writeFile (pathJoin [root, "routes", "api.php"])]

/-- First occurrence search: the remainder of the haystack after the first
occurrence of the needle, if any. -/
def findSubRest (needle : List Char) : List Char → Option (List Char)
  | [] => if needle.isEmpty then some [] else none
  | h :: t =>
    if needle.isPrefixOf (h :: t) then some ((h :: t).drop needle.length)
    else findSubRest needle t

/-- Success of the regex `/const routes = \[([\s\S]*?)\]/` used by
`registerVueRoutes`: the content has an occurrence of `const routes = [`
followed (lazily) by a `]`. -/
def routesArrayTest (content : String) : Bool :=
  match findSubRest ("const routes = [" : String).data content.data with
  | some rest => rest.contains ']'
  | none => false

/-- Writes of `registerVueRoutes` in `src/generators/crud-spa.js`: nothing
if `router.js` is missing, already holds the `${modelName} Routes` marker,
or has no recognizable routes array. -/
def registerVueRoutesWrites (root m : String) (file : Option String) : List Effect :=
  match file with
  | none => []
  | some c =>
    if jsIncludes c (m ++ " Routes") then []
    else if routesArrayTest c then
      [.writeFile (pathJoin [root, "resources", "js", "router.js"])]
    else []

/-- `generateVueCRUD` from `src/generators/crud-spa.js` as a function from
its two prompt results (entity name, raw field string; `none` = prompt
dismissed) and the pre-existing file-system state to the list of side
effects it performs. An aborted prompt returns before the pipeline starts. -/
def generateVueCRUDEffects (env : VueEnv) (modelName fields : Option String) :
    List Effect :=
  if truthyStr modelName = false then []
  else if truthyStr fields = false then []
  else
    let m := modelName.getD ""
    createModelWrite env.rootPath m ++
      createMigrationWrite env.rootPath env.timestamp m ++
      createAPIControllerWrite env.rootPath m ++
      createAPIResourceWrite env.rootPath m ++
      createFormRequestsWrites env.rootPath m ++
      createVueComponentsWrites env.rootPath m ++
      createVueComposablesWrite env.rootPath m ++
      createAPIRoutesWrites env.rootPath m env.apiRoutes ++
      registerVueRoutesWrites env.rootPath m env.routerJs

/-- The `components` flags of the API generator: which artifacts to
produce. Defaults are the `basic` selection (controller + routes). -/
structure ApiComponents where
  model : Bool := false
  migration : Bool := false
  controller : Bool := true
  resource : Bool := false
  collection : Bool := false
  requests : Bool := false
  routes : Bool := true
  tests : Bool := false
  policy : Bool := false

/-- The `complete` selection of the API generator: everything. -/
def completeComponents : ApiComponents :=
  { model := true, migration := true, controller := true, resource := true,
    collection := true, requests := true, routes := true, tests := true,
    policy := true }

/-- The `custom` selection of the API generator, from the picked labels. -/
def customComponents (sel : List String) : ApiComponents :=
  { model := sel.contains "Model",
    migration := sel.contains "Migration",
    controller := sel.contains "API Controller",
    resource := sel.contains "API Resource",
    collection := sel.contains "Resource Collection",
    requests := sel.contains "Form Requests (Store/Update)",
    routes := sel.contains "API Routes",
    tests := sel.contains "API Tests",
    policy := sel.contains "Policy" }

/-- Pre-existing file-system state and overwrite-prompt answers consulted by
the API generator. -/
structure ApiEnv where
  rootPath : String
  modelThere : Bool := false
  modelOverwrite : Option String := none
  controllerThere : Bool := false
  controllerOverwrite : Option String := none
  resourceThere : Bool := false
  resourceOverwrite : Option String := none
  collectionThere : Bool := false
  collectionOverwrite : Option String := none
  apiRoutes : Option String := none

/-- Results of the API generator's interactive prompts (`none` = prompt
dismissed). -/
structure ApiPrompts where
  modelName : Option String := none
  apiType : Option String := none
  customSelection : Option (List String) := none
  useVersioning : Option (Option String) := none
  useAuth : Option String := none

/-- Overwrite-guarded write used by the API generator's create functions:
if the target exists and the warning prompt is not answered `Yes`, nothing
is written. -/
def guardedWrite (there : Bool) (answer : Option String) (path : String) : List Effect :=
  if there && answer ≠ some "Yes" then [] else [.writeFile path]

/-- Write of the API generator's `createModel`. -/
def apiModelWrite (env : ApiEnv) (m : String) : List Effect :=
  guardedWrite env.modelThere env.modelOverwrite
    (pathJoin [env.rootPath, "app", "Models", m ++ ".php"])

/-- Write of the API generator's `createAPIController` (versioned directory
when an API version was chosen). -/
def apiControllerWrite (env : ApiEnv) (m : String) (v : Option String) : List Effect :=
  guardedWrite env.controllerThere env.controllerOverwrite
    (pathJoin [env.rootPath, "app", "Http", "Controllers", "Api",
      (if truthyStr v then jsToUpperCase (v.getD "") else ""), m ++ "Controller.php"])

/-- Write of the API generator's `createAPIResource`. -/
def apiResourceWrite (env : ApiEnv) (m : String) (v : Option String) : List Effect :=
  guardedWrite env.resourceThere env.resourceOverwrite
    (pathJoin [env.rootPath, "app", "Http", "Resources",
      (if truthyStr v then jsToUpperCase (v.getD "") else ""), m ++ "Resource.php"])

/-- Write of the API generator's `createAPICollection`. -/
def apiCollectionWrite (env : ApiEnv) (m : String) (v : Option String) : List Effect :=
  guardedWrite env.collectionThere env.collectionOverwrite
    (pathJoin [env.rootPath, "app", "Http", "Resources",
      (if truthyStr v then jsToUpperCase (v.getD "") else ""), m ++ "Collection.php"])

/-- Writes of the API generator's `createFormRequests`. -/
def apiRequestsWrites (env : ApiEnv) (m : String) : List Effect :=
  [.writeFile (pathJoin [env.rootPath, "app", "Http", "Requests",
     "Store" ++ m ++ "Request.php"]),
   .writeFile (pathJoin [env.rootPath, "app", "Http", "Requests",
     "Update" ++ m ++ "Request.php"])]

/-- Writes of the API generator's `createAPIRoutes`. -/
def apiRoutesWrites (env : ApiEnv) (m : String) : List Effect :=
  match env.apiRoutes with
  | none => []
  | some c =>
    if jsIncludes c (m ++ " API Routes") then []
    else [.writeFile (pathJoin [env.rootPath, "routes", "api.php"])]

/-- Write of the API generator's `createAPITests`. -/
def apiTestsWrite (env : ApiEnv) (m : String) : List Effect :=
  [.writeFile (pathJoin [env.rootPath, "tests", "Feature", m ++ "ApiTest.php"])]

/-- Write of the API generator's `createPolicy`. -/
def apiPolicyWrite (env : ApiEnv) (m : String) : List Effect :=
  [.writeFile (pathJoin [env.rootPath, "app", "Policies", m ++ "Policy.php"])]

/-- `generateAPI` from the API generator as a function from its prompt
results and the pre-existing file-system state to the list of side effects
it performs. The prompt guards abort, in source order: entity name, API
type, custom component selection (`none` or empty list), versioning choice,
authentication choice. The pipeline then runs the selected component steps
in source order (note: the `migration` flag is never consulted by a
pipeline step). -/
def generateAPIEffects (env : ApiEnv) (p : ApiPrompts) : List Effect :=
  if truthyStr p.modelName = false then []
  else
    match p.apiType with
    | none => []
    | some apiType =>
      let m := p.modelName.getD ""
      let comps : Option ApiComponents :=
        if apiType = "complete" then some completeComponents
        else if apiType = "custom" then
          match p.customSelection with
          | none => none
          | some sel => if sel.isEmpty then none else some (customComponents sel)
        else some {}
      match comps with
      | none => []
      | some comps =>
        match p.useVersioning with
        | none => []
        | some ver =>
          match p.useAuth with
          | none => []
          | some _auth =>
            (if comps.model then apiModelWrite env m else []) ++
              (if comps.controller then apiControllerWrite env m ver else []) ++
              (if comps.resource then apiResourceWrite env m ver else []) ++
              (if comps.collection then apiCollectionWrite env m ver else []) ++
              (if comps.requests then apiRequestsWrites env m else []) ++
              (if comps.routes then apiRoutesWrites env m else []) ++
              (if comps.tests then apiTestsWrite env m else []) ++
              (if comps.policy then apiPolicyWrite env m else [])

/-- C9: if the entity-name prompt is cancelled (dismissed, or — were it
possible past input validation — answered with the empty string, both falsy
in the source's `if (!modelName) return`), the Vue CRUD command and the API
command perform no side effect at all: no file writes and no external tool
commands, whatever the other prompts and the file system hold. With the
prompts answered, the pipeline does write files (last conjunct), so the
cancellation result is not vacuous. -/
theorem c9_cancellation :
    (∀ (env : VueEnv) (fields : Option String),
      generateVueCRUDEffects env none fields = [] ∧
        generateVueCRUDEffects env (some "") fields = []) ∧
      (∀ (env : ApiEnv) (a : Option String) (cs : Option (List String))
        (uv : Option (Option String)) (ua : Option String),
        generateAPIEffects env
            { modelName := none, apiType := a, customSelection := cs,
              useVersioning := uv, useAuth := ua } = [] ∧
          generateAPIEffects env
              { modelName := some "", apiType := a, customSelection := cs,
                useVersioning := uv, useAuth := ua } = []) ∧
      generateVueCRUDEffects
          { rootPath := "root", timestamp := "20260101000000",
            apiRoutes := none, routerJs := none }
          (some "Product") (some "name:string") ≠ [] := by
  refine ⟨fun env fields => ⟨?_, ?_⟩, fun env a cs uv ua => ⟨?_, ?_⟩, by decide⟩ <;>
    simp [generateVueCRUDEffects, generateAPIEffects, truthyStr]

lemma smk_data (s : String) : String.mk s.data = s := rfl

lemma splitChar_no_sep (sep : Char) (l : List Char) (h : ∀ c ∈ l, c ≠ sep) :
    splitChar sep l = [l] := by
  induction l with
  | nil => rfl
  | cons c rest ih =>
    have hc : c ≠ sep := h c (List.mem_cons_self c rest)
    rw [splitChar, if_neg hc, ih (fun x hx => h x (List.mem_cons_of_mem c hx))]
    rfl

lemma splitChar_append (sep : Char) (l1 l2 : List Char) (h : ∀ c ∈ l1, c ≠ sep) :
    splitChar sep (l1 ++ sep :: l2) = l1 :: splitChar sep l2 := by
  induction l1 with
  | nil => simp [splitChar]
  | cons c rest ih =>
    have hc : c ≠ sep := h c (List.mem_cons_self c rest)
    rw [List.cons_append, splitChar, if_neg hc,
      ih (fun x hx => h x (List.mem_cons_of_mem c hx))]
    rfl

lemma dropWhile_no_ws (l : List Char) (h : ∀ c ∈ l, jsWhitespace c = false) :
    l.dropWhile jsWhitespace = l := by
  cases l with
  | nil => rfl
  | cons c rest => simp [List.dropWhile_cons, h c (List.mem_cons_self c rest)]

lemma trimList_id (l : List Char) (h : ∀ c ∈ l, jsWhitespace c = false) :
    trimList l = l := by
  unfold trimList
  rw [dropWhile_no_ws l h,
    dropWhile_no_ws l.reverse (fun c hc => h c (List.mem_reverse.mp hc)),
    List.reverse_reverse]

lemma jsTrim_id (s : String) (h : ∀ c ∈ s.data, jsWhitespace c = false) :
    jsTrim s = s := by
  unfold jsTrim
  rw [trimList_id s.data h, smk_data]

lemma jsSplit_no_sep (sep : Char) (s : String) (h : ∀ c ∈ s.data, c ≠ sep) :
    jsSplit sep s = [s] := by
  unfold jsSplit
  rw [splitChar_no_sep sep s.data h]
  simp [smk_data]

lemma jsSplit_pair (n t : String) (hn : ∀ c ∈ n.data, c ≠ ':') (ht : ∀ c ∈ t.data, c ≠ ':') :
    jsSplit ':' (n ++ ":" ++ t) = [n, t] := by
  unfold jsSplit
  have hdata : (n ++ ":" ++ t).data = n.data ++ ':' :: t.data := by
    simp [String.data_append]
  rw [hdata, splitChar_append ':' n.data t.data hn, splitChar_no_sep ':' t.data ht]
  simp [smk_data]

/-- A well-formed token of the field mini-language: non-empty, and free of
the separator characters and of whitespace. -/
def goodTok (s : String) : Prop :=
  s ≠ "" ∧ ∀ c ∈ s.data, c ≠ ',' ∧ c ≠ ':' ∧ jsWhitespace c = false

instance (s : String) : Decidable (goodTok s) := by
  unfold goodTok
  infer_instance

/-- A well-formed clause `name` or `name:type` of a field-specification
string. -/
def goodClause (p : String × Option String) : Prop :=
  goodTok p.1 ∧ match p.2 with
                | none => True
                | some t => goodTok t

instance : (p : String × Option String) → Decidable (goodClause p)
  | (n, none) => inferInstanceAs (Decidable (goodTok n ∧ True))
  | (n, some t) => inferInstanceAs (Decidable (goodTok n ∧ goodTok t))

/-- Rendering of one clause of a well-formed specification string. -/
def renderClause (p : String × Option String) : String :=
  match p.2 with
  | none => p.1
  | some t => p.1 ++ ":" ++ t

/-- Comma-join of the clauses of a specification string. -/
def joinComma : List String → String
  | [] => ""
  | [s] => s
  | s :: rest => s ++ "," ++ joinComma rest

lemma splitComma_joinComma (ls : List String) (hne : ls ≠ [])
    (h : ∀ s ∈ ls, ∀ c ∈ s.data, c ≠ ',') :
    splitChar ',' (joinComma ls).data = ls.map String.data := by
  induction ls with
  | nil => exact absurd rfl hne
  | cons s rest ih =>
    cases rest with
    | nil =>
      simp only [joinComma, List.map]
      exact splitChar_no_sep ',' s.data (h s (List.mem_cons_self s []))
    | cons s2 rest2 =>
      have hdata : (joinComma (s :: s2 :: rest2)).data =
          s.data ++ ',' :: (joinComma (s2 :: rest2)).data := by
        show (s ++ "," ++ joinComma (s2 :: rest2)).data = _
        simp [String.data_append]
      rw [hdata,
        splitChar_append ',' s.data _ (fun c hc => h s (List.mem_cons_self s _) c hc),
        ih (by simp) (fun x hx c hc => h x (List.mem_cons_of_mem s hx) c hc)]
      rfl

lemma jsSplit_joinComma (ls : List String) (hne : ls ≠ [])
    (h : ∀ s ∈ ls, ∀ c ∈ s.data, c ≠ ',') :
    jsSplit ',' (joinComma ls) = ls := by
  unfold jsSplit
  rw [splitComma_joinComma ls hne h, List.map_map]
  calc ls.map (String.mk ∘ String.data) = ls.map id :=
        List.map_congr_left (fun a _ => smk_data a)
    _ = ls := List.map_id ls

lemma renderClause_chars :
    ∀ (p : String × Option String), goodClause p →
      ∀ c ∈ (renderClause p).data, c ≠ ',' ∧ jsWhitespace c = false
  | (n, none), h => by
    intro c hc
    obtain ⟨⟨_, hn⟩, _⟩ := h
    exact ⟨(hn c hc).1, (hn c hc).2.2⟩
  | (n, some t), h => by
    intro c hc
    obtain ⟨⟨_, hn⟩, ht⟩ := h
    have ht' : goodTok t := ht
    have hdata : (renderClause (n, some t)).data = n.data ++ ':' :: t.data := by
      show (n ++ ":" ++ t).data = _
      simp [String.data_append]
    rw [hdata] at hc
    rcases List.mem_append.mp hc with h1 | h2
    · exact ⟨(hn c h1).1, (hn c h1).2.2⟩
    · rcases List.mem_cons.mp h2 with rfl | h3
      · exact ⟨by decide, by decide⟩
      · exact ⟨(ht'.2 c h3).1, (ht'.2 c h3).2.2⟩

lemma jsTrimString : jsTrim "string" = "string" := by decide

/-- C2: for every well-formed specification string built as the comma-join
of clauses `name` or `name:type` (tokens non-empty and free of `,`, `:` and
whitespace), both FieldSpec parsers return a descriptor list of exactly the
same length as the clause list, in the same order, each descriptor's name
being the clause's first component and its type the second component,
defaulting to `string` when the clause has no type component. -/
theorem c2_parser_round_trip (cs : List (String × Option String))
    (hne : cs ≠ []) (hwf : ∀ p ∈ cs, goodClause p) :
    parseFields (joinComma (cs.map renderClause)) =
      cs.map (fun p => ({ name := p.1, type := p.2.getD "string" } : ParsedField)) ∧
      parseFieldsManual (joinComma (cs.map renderClause)) =
        cs.map (fun p => ({ name := p.1, type := p.2.getD "string" } : FieldDescriptor)) := by
  have hnemap : cs.map renderClause ≠ [] := by
    simpa [List.map_eq_nil_iff] using hne
  have hcomma : ∀ s ∈ cs.map renderClause, ∀ c ∈ s.data, c ≠ ',' := by
    intro s hs c hc
    obtain ⟨p, hp, rfl⟩ := List.mem_map.mp hs
    exact (renderClause_chars p (hwf p hp) c hc).1
  have hsplit := jsSplit_joinComma (cs.map renderClause) hnemap hcomma
  have htrimmap : (cs.map renderClause).map jsTrim = cs.map renderClause := by
    calc (cs.map renderClause).map jsTrim = (cs.map renderClause).map id :=
          List.map_congr_left (fun s hs => by
            obtain ⟨p, hp, rfl⟩ := List.mem_map.mp hs
            exact jsTrim_id _ (fun c hc => (renderClause_chars p (hwf p hp) c hc).2))
      _ = cs.map renderClause := List.map_id _
  constructor
  · unfold parseFields
    rw [hsplit, List.map_map]
    apply List.map_congr_left
    intro p hp
    obtain ⟨n, t?⟩ := p
    have hng : goodTok n := (hwf (n, t?) hp).1
    have hws_n : ∀ c ∈ n.data, jsWhitespace c = false := fun c hc => (hng.2 c hc).2.2
    have hcolon_n : ∀ c ∈ n.data, c ≠ ':' := fun c hc => (hng.2 c hc).2.1
    cases t? with
    | none =>
      have hr : renderClause (n, none) = n := rfl
      simp only [Function.comp_apply, hr]
      rw [jsTrim_id n hws_n, jsSplit_no_sep ':' n hcolon_n]
      simp [List.headD, List.get?, jsTrim_id n hws_n, jsTrimString]
    | some t =>
      have htg : goodTok t := (hwf (n, some t) hp).2
      have hws_t : ∀ c ∈ t.data, jsWhitespace c = false := fun c hc => (htg.2 c hc).2.2
      have hcolon_t : ∀ c ∈ t.data, c ≠ ':' := fun c hc => (htg.2 c hc).2.1
      have hr : renderClause (n, some t) = n ++ ":" ++ t := rfl
      have hwsr : ∀ c ∈ (renderClause (n, some t)).data, jsWhitespace c = false :=
        fun c hc => (renderClause_chars (n, some t) (hwf _ hp) c hc).2
      simp only [Function.comp_apply]
      rw [jsTrim_id _ hwsr, hr, jsSplit_pair n t hcolon_n hcolon_t]
      simp [List.headD, List.get?, jsTrim_id n hws_n, jsTrim_id t hws_t]
  · unfold parseFieldsManual
    rw [hsplit, htrimmap, List.map_map]
    apply List.map_congr_left
    intro p hp
    obtain ⟨n, t?⟩ := p
    have hng : goodTok n := (hwf (n, t?) hp).1
    have hcolon_n : ∀ c ∈ n.data, c ≠ ':' := fun c hc => (hng.2 c hc).2.1
    cases t? with
    | none =>
      have hr : renderClause (n, none) = n := rfl
      simp only [Function.comp_apply, hr]
      rw [jsSplit_no_sep ':' n hcolon_n]
      simp [List.headD, List.get?, jsOr]
    | some t =>
      have htg : goodTok t := (hwf (n, some t) hp).2
      have hcolon_t : ∀ c ∈ t.data, c ≠ ':' := fun c hc => (htg.2 c hc).2.1
      have hr : renderClause (n, some t) = n ++ ":" ++ t := rfl
      simp only [Function.comp_apply, hr]
      rw [jsSplit_pair n t hcolon_n hcolon_t]
      simp [List.headD, List.get?, jsOr, htg.1]

theorem c2_parser_round_trip_witness :
    ([("name", some "string"), ("price", some "decimal"), ("active", none)] :
        List (String × Option String)) ≠ [] ∧
      (∀ p ∈ ([("name", some "string"), ("price", some "decimal"), ("active", none)] :
          List (String × Option String)), goodClause p) ∧
      (parseFields
          (joinComma
            (([("name", some "string"), ("price", some "decimal"), ("active", none)] :
              List (String × Option String)).map renderClause)) =
        ([("name", some "string"), ("price", some "decimal"), ("active", none)] :
            List (String × Option String)).map
          (fun p => ({ name := p.1, type := p.2.getD "string" } : ParsedField)) ∧
        parseFieldsManual
            (joinComma
              (([("name", some "string"), ("price", some "decimal"), ("active", none)] :
                List (String × Option String)).map renderClause)) =
          ([("name", some "string"), ("price", some "decimal"), ("active", none)] :
              List (String × Option String)).map
            (fun p => ({ name := p.1, type := p.2.getD "string" } : FieldDescriptor))) :=
  ⟨by decide, by decide, c2_parser_round_trip _ (by decide) (by decide)⟩

example : jsTrim "\u00A0ab\u00A0" = "ab" := by decide
example : jsParseInt "0x10" = some 16 := by decide
example : jsParseInt " 8" = some 8 := by decide
example : jsParseInt "abc" = none := by decide
